import Mathlib

/-!
Verification development for the FlashVocab lookup/flashcard app
(`src/App.tsx`, which also contains the `geminiService` module).

The TypeScript source is shallowly embedded: React component state becomes an
explicit `AppState` record, the module-level memoizer `Map`s become an explicit
`Caches` record, the asynchronous handlers become pure state-transition
functions (one function per synchronous segment between `await` points, with
the external AI call abstracted as an oracle `String → Except String _`), and
the debounce `useEffect` becomes a small timed state machine over input events.
-/

/-- JS whitespace test used by `String.prototype.trim` (ASCII fragment). -/
def jsWhitespace (c : Char) : Bool :=
  c = ' ' || c = '\t' || c = '\n' || c = '\r'

/-- Embedding of JS `s.trim()`: drop leading and trailing whitespace. -/
def jsTrim (s : String) : String :=
  String.mk (((s.data.dropWhile jsWhitespace).reverse.dropWhile jsWhitespace).reverse)

/-- Embedding of JS `s.toLowerCase()` (character-wise lowering). -/
def jsToLower (s : String) : String :=
  String.mk (s.data.map Char.toLower)

/-- Embedding of `WordData` (`src/types.ts` is not in the sources; the identity field `word`
and the SRS fields `srs_level`/`next_review` are the ones `App.tsx` reads and
writes; every other provider-supplied field is kept as one opaque payload). -/
structure WordData where
  word : String
  srs_level : Option Nat := none
  next_review : Option Nat := none
  payload : String := ""
deriving DecidableEq

/-- Embedding of `SentenceData`, with identity field `sentence`; same conventions as
`WordData`. -/
structure SentenceData where
  sentence : String
  srs_level : Option Nat := none
  next_review : Option Nat := none
  payload : String := ""
deriving DecidableEq

/-- The `searchMode` state: either `word` or `sentence`. -/
inductive SearchMode
  | word
  | sentence
deriving DecidableEq

/-- The `currentView` state: `search`, `flashcards` or `study`. -/
inductive View
  | search
  | flashcards
  | study
deriving DecidableEq

/-- React component state of `App` together with the mutable ref
`latestQueryRef` (field `latestQuery`), which the staleness guard uses. -/
structure AppState where
  query : String := ""
  searchMode : SearchMode := SearchMode.word
  wordData : Option WordData := none
  sentenceData : Option SentenceData := none
  loading : Bool := false
  isSubLoading : Bool := false
  error : Option String := none
  lastLoadTime : Option Nat := none
  currentView : View := View.search
  selectedDetail : Option (Sum WordData SentenceData) := none
  latestQuery : String := ""
  savedWords : List WordData := []
  savedSentences : List SentenceData := []
deriving DecidableEq

/-- The module-level memoizer maps of `geminiService`: `wordCache` and
`sentenceCache`, as association lists (newest entry first, like `Map.set`
followed by `Map.get` returning the stored value). -/
structure Caches where
  wordCache : List (String × WordData) := []
  sentenceCache : List (String × SentenceData) := []
deriving DecidableEq

/-- Embedding of `lookupWord` (`geminiService`): normalize by trim + toLowerCase, consult
`wordCache`; on miss issue the external call (oracle `net`, whose `Except.error`
covers both request rejection and `JSON.parse` failure) and insert into the
cache only on success. The returned `Bool` records whether the external call
was issued. -/
def lookupWord (c : Caches) (net : String → Except String WordData) (input : String) :
    Except String WordData × Caches × Bool :=
  let normalized := jsToLower (jsTrim input)
  match c.wordCache.lookup normalized with
  | some r => (Except.ok r, c, false)
  | none =>
    match net normalized with
    | Except.ok result =>
        (Except.ok result, { c with wordCache := (normalized, result) :: c.wordCache }, true)
    | Except.error e => (Except.error e, c, true)

/-- Embedding of `lookupSentence` (`geminiService`): normalize by trim only (no lowering),
consult `sentenceCache`; otherwise exactly like `lookupWord`. -/
def lookupSentence (c : Caches) (net : String → Except String SentenceData) (input : String) :
    Except String SentenceData × Caches × Bool :=
  let normalized := jsTrim input
  match c.sentenceCache.lookup normalized with
  | some r => (Except.ok r, c, false)
  | none =>
    match net normalized with
    | Except.ok result =>
        (Except.ok result, { c with sentenceCache := (normalized, result) :: c.sentenceCache }, true)
    | Except.error e => (Except.error e, c, true)

/-- The dedup check of `handleSearch` (App.tsx lines 122-123): the cleaned
query equals the displayed result's identity for the current mode,
case-insensitively. -/
def sameAsDisplayed (s : AppState) (cleanQuery : String) : Bool :=
  match s.searchMode with
  | SearchMode.word =>
    match s.wordData with
    | some w => jsToLower w.word == jsToLower cleanQuery
    | none => false
  | SearchMode.sentence =>
    match s.sentenceData with
    | some d => jsToLower d.sentence == jsToLower cleanQuery
    | none => false

/-- Outcome of the synchronous prefix of `handleSearch`: returned early on an
empty query, returned early on the dedup check, or dispatched an external
lookup for the given cleaned query in the given mode. -/
inductive DispatchOutcome
  | emptyQuery
  | sameQuery
  | inFlight (cleanQuery : String) (mode : SearchMode)
deriving DecidableEq

/-- Synchronous prefix of `handleSearch` (App.tsx lines 115-127), up to the
`await`: trim the query; return if empty; write the staleness marker
`latestQueryRef.current = cleanQuery`; return on the dedup check; otherwise set
`loading := true`, `error := null` and dispatch the external call. Note the
marker is written before the dedup check, exactly as in the source. -/
def dispatchSearch (s : AppState) : AppState × DispatchOutcome :=
  let cleanQuery := jsTrim s.query
  if cleanQuery = "" then (s, DispatchOutcome.emptyQuery)
  else
    let s1 : AppState := { s with latestQuery := cleanQuery }
    if sameAsDisplayed s1 cleanQuery then (s1, DispatchOutcome.sameQuery)
    else ({ s1 with loading := true, error := none }, DispatchOutcome.inFlight cleanQuery s.searchMode)

/-- Resumption of `handleSearch` in word mode after `lookupWord` resolved
(App.tsx lines 130-135 plus the guarded `finally`): publish only if the
initiating query `q0` is still the value of the staleness marker. -/
def resolveSearchSuccessWord (s : AppState) (q0 : String) (r : WordData) (elapsed : Nat) :
    AppState :=
  if s.latestQuery = q0 then
    { s with wordData := some r, sentenceData := none, lastLoadTime := some elapsed,
             loading := false }
  else s

/-- Resumption of `handleSearch` in sentence mode after `lookupSentence`
resolved (App.tsx lines 137-142 plus the guarded `finally`). -/
def resolveSearchSuccessSentence (s : AppState) (q0 : String) (r : SentenceData) (elapsed : Nat) :
    AppState :=
  if s.latestQuery = q0 then
    { s with sentenceData := some r, wordData := none, lastLoadTime := some elapsed,
             loading := false }
  else s

/-- The localized error message set by `handleSearch` on lookup failure. -/
def lookupErrorMessage : String := "Lỗi tra cứu. Vui lòng kiểm tra lại kết nối."

/-- Resumption of `handleSearch` after the external call rejected (App.tsx
lines 144-148, `catch` and `finally`): set the error and clear loading only if
the initiating query is still the marker. -/
def resolveSearchFailure (s : AppState) (q0 : String) : AppState :=
  if s.latestQuery = q0 then { s with error := some lookupErrorMessage, loading := false }
  else s

/-- Synchronous clearing performed by the debounce effect (App.tsx lines
97-105) when it runs with the current view and query: on an empty trimmed
query it clears `wordData`, `sentenceData` and `lastLoadTime`. -/
def debounceEffectClear (s : AppState) : AppState :=
  if s.currentView ≠ View.search ∨ (jsTrim s.query).length < 2 then
    if (jsTrim s.query).length = 0 then
      { s with wordData := none, sentenceData := none, lastLoadTime := none }
    else s
  else s

/-- Whether the debounce effect body (App.tsx lines 106-107) schedules a
delayed `handleSearch` for the current state. -/
def debounceEffectSchedules (s : AppState) : Bool :=
  s.currentView = View.search && 2 ≤ (jsTrim s.query).length

/-- One change of the debounce effect's dependencies `[query, searchMode,
currentView]`: the new values and the time of the change. -/
structure InputEvent where
  time : Nat
  query : String
  mode : SearchMode
  view : View
deriving DecidableEq

/-- Timer state of the debounce machine: the pending `setTimeout` (fire time
and the query/mode captured by the scheduled `handleSearch` closure) and the
log of fired invocations `(fireTime, query, mode)`. -/
structure DebounceState where
  pending : Option (Nat × String × SearchMode) := none
  calls : List (Nat × String × SearchMode) := []
deriving DecidableEq

/-- A pending timer whose fire time has arrived by time `t` fires: the
scheduled `handleSearch` invocation is logged and the timer is spent. -/
def fireIfDue (st : DebounceState) (t : Nat) : DebounceState :=
  match st.pending with
  | some p =>
      if p.1 ≤ t then { pending := none, calls := st.calls ++ [p] } else st
  | none => st

/-- Processing one dependency change at `e.time`: any timer already due fired
first; the effect cleanup then clears the pending timer (`clearTimeout`), and
the effect body reschedules 400 time-units later only when the view is the
search view and the trimmed query has length at least 2 (App.tsx lines
97-109). -/
def debounceStep (st : DebounceState) (e : InputEvent) : DebounceState :=
  let st1 := fireIfDue st e.time
  let st2 : DebounceState := { st1 with pending := none }
  if e.view = View.search ∧ 2 ≤ (jsTrim e.query).length then
    { st2 with pending := some (e.time + 400, e.query, e.mode) }
  else st2

/-- Run the debounce machine over a sequence of dependency changes, then let
time pass so that any still-pending timer fires. -/
def debounceRun (events : List InputEvent) : DebounceState :=
  let final := events.foldl debounceStep { pending := none, calls := [] }
  match final.pending with
  | some p => { pending := none, calls := final.calls ++ [p] }
  | none => final

/-- Strictly increasing event times with consecutive gaps below the 400
time-unit debounce delay (a burst of keystrokes). -/
def burstGaps : List InputEvent → Bool
  | [] => true
  | [_] => true
  | a :: b :: rest => (a.time < b.time && b.time < a.time + 400) && burstGaps (b :: rest)

/-- Embedding of `isItemSaved` restricted to words (App.tsx lines 172-173):
case-insensitive membership of the identity in `savedWords`. -/
def isWordSaved (savedWords : List WordData) (w : WordData) : Bool :=
  savedWords.any (fun x => jsToLower x.word == jsToLower w.word)

/-- Embedding of `isItemSaved` restricted to sentences (App.tsx line 174): exact-text
membership of the identity in `savedSentences`. -/
def isSentenceSaved (savedSentences : List SentenceData) (d : SentenceData) : Bool :=
  savedSentences.any (fun x => x.sentence == d.sentence)

/-- Embedding of `handleToggleSave` on a word (App.tsx lines 180-183): remove by
case-insensitive identity when saved, else prepend the item with
`srs_level = 0` and `next_review = now`. -/
def handleToggleSaveWord (savedWords : List WordData) (w : WordData) (now : Nat) :
    List WordData :=
  if isWordSaved savedWords w then
    savedWords.filter (fun x => jsToLower x.word != jsToLower w.word)
  else
    { w with srs_level := some 0, next_review := some now } :: savedWords

/-- Embedding of `handleToggleSave` on a sentence (App.tsx lines 184-187): remove by exact
identity when saved, else prepend with `srs_level = 0`, `next_review = now`. -/
def handleToggleSaveSentence (savedSentences : List SentenceData) (d : SentenceData) (now : Nat) :
    List SentenceData :=
  if isSentenceSaved savedSentences d then
    savedSentences.filter (fun x => x.sentence != d.sentence)
  else
    { d with srs_level := some 0, next_review := some now } :: savedSentences

/-- The startup initializer shared by `savedWords` and `savedSentences`
(App.tsx lines 29-41): `localStorage.getItem` yields `stored`; a missing key or
a falsy (empty) string yields `[]`; otherwise `JSON.parse` (abstracted as the
partial function `parse`, `none` = thrown exception caught by the
`try`/`catch`) yields the parsed list, and `[]` on failure. -/
def loadStoredList {α : Type} (stored : Option String) (parse : String → Option (List α)) :
    List α :=
  match stored with
  | none => []
  | some s => if s = "" then [] else (parse s).getD []

/-- Characters stripped by `handleQuickLookup`'s regex
(App.tsx line 152). -/
def punctChars : List Char :=
  ['.', ',', '/', '#', '!', '$', '%', '^', '&', '*', ';', ':',
   Char.ofNat 123, Char.ofNat 125, '=', '-', '_', Char.ofNat 96, '~', '(', ')']

/-- Embedding of `word.replace(/[.,\/#!$%\^&\*;:{}=\-_`~()]/g, "")`. -/
def stripPunct (s : String) : String :=
  String.mk (s.data.filter (fun c => !punctChars.contains c))

/-- Synchronous prefix of `handleQuickLookup` (App.tsx lines 151-154): strip
punctuation, trim; a cleaned word that is empty or shorter than 2 characters
aborts; otherwise `isSubLoading := true` and the cleaned word goes to
`lookupWord`. -/
def quickLookupStart (s : AppState) (word : String) : AppState × Option String :=
  let cleanWord := jsTrim (stripPunct word)
  if cleanWord = "" ∨ cleanWord.length < 2 then (s, none)
  else ({ s with isSubLoading := true }, some cleanWord)

/-- Resumption of `handleQuickLookup` (App.tsx lines 156-158): on success set
the transient detail slot; on failure only log (`console.error`); in both
cases reset `isSubLoading` (the `finally`). -/
def quickLookupFinish (s : AppState) (outcome : Except String WordData) : AppState :=
  match outcome with
  | Except.ok r => { s with selectedDetail := some (Sum.inl r), isSubLoading := false }
  | Except.error _ => { s with isSubLoading := false }

/-! Concrete fixtures used to instantiate the theorems below. -/

/-- A network oracle whose every call rejects. -/
def badNetW : String → Except String WordData := fun _ => Except.error "boom"

/-- A sentence-mode network oracle whose every call rejects. -/
def badNetS : String → Except String SentenceData := fun _ => Except.error "boom"

/-- A network oracle answering every word query successfully. -/
def goodNetW : String → Except String WordData :=
  fun q => Except.ok { word := q, payload := "net" }

/-- A sentence-mode network oracle answering every query successfully. -/
def goodNetS : String → Except String SentenceData :=
  fun q => Except.ok { sentence := q, payload := "net" }

/-- A concrete stand-in for `JSON.parse` on word collections: parses exactly
the text `[x]`, throws (`none`) on everything else, including `""`. -/
def demoParse : String → Option (List WordData) :=
  fun s => if s = "[x]" then some [{ word := "x" }] else none

/-- A saved word stored with capitalized identity `Run`. -/
def runEntry : WordData :=
  { word := "Run", srs_level := some 0, next_review := some 1, payload := "p" }

/-- The same word toggled with lower-case input `run`. -/
def runLower : WordData := { word := "run" }

/-- A sentence item not present in an empty collection. -/
def helloSentence : SentenceData := { sentence := "Hello there" }

/-- Initial state whose query is ` dog ` (word mode, nothing displayed). -/
def s0Fix : AppState := { query := " dog " }

/-- State where the displayed word equals the submitted query `cat` while an
older lookup for `dog` is still the latest-dispatched marker. -/
def c6State : AppState :=
  { query := "cat", wordData := some { word := "cat" }, latestQuery := "dog" }

/-- State submitting ` cat ` while `Cat` is displayed (case-insensitive
dedup hit). -/
def c6SubmitState : AppState :=
  { query := " cat ", wordData := some { word := "Cat" }, latestQuery := "old" }

/-- State with an error displayed at the moment the query becomes empty. -/
def c4ErrState : AppState :=
  { query := "", error := some "err", wordData := some { word := "cat" },
    lastLoadTime := some 3 }

/-- State whose query is whitespace-only (trims to empty) with a result, a
latency and an error displayed. -/
def c4WitState : AppState :=
  { query := "  ", error := some "err", wordData := some { word := "cat" },
    sentenceData := some { sentence := "s" }, lastLoadTime := some 3 }

/-- State with a displayed result while a lookup for `cat` (the current
marker) is in flight. -/
def c10State : AppState :=
  { latestQuery := "cat", wordData := some { word := "old" }, loading := true,
    lastLoadTime := some 9 }

/-- The keystroke burst `c`, `ca`, `cat` at 100 time-unit intervals in the
search view. -/
def burstFix : List InputEvent :=
  [{ time := 0, query := "c", mode := SearchMode.word, view := View.search },
   { time := 100, query := "ca", mode := SearchMode.word, view := View.search },
   { time := 200, query := "cat", mode := SearchMode.word, view := View.search }]

/-- Whether a fired debounce call `(fireTime, query, mode)` is explained by an
event of the given list: the event was in the search view with a trimmed query
of length at least 2, and the call carries that event's query and mode with
fire time exactly 400 time-units after the event. -/
def callFromEvent (events : List InputEvent) (c : Nat × String × SearchMode) : Prop :=
  ∃ e ∈ events, e.view = View.search ∧ 2 ≤ (jsTrim e.query).length ∧
    c.2.1 = e.query ∧ c.2.2 = e.mode ∧ c.1 = e.time + 400

/-! Helper lemmas. -/

/-- A `lookupWord` call that returned an error was a cache miss whose external
call failed: the caches are unchanged, the normalized key is still absent, and
the external call was issued. -/
theorem lookupWord_error_case {c : Caches} {net : String → Except String WordData}
    {input e : String} (h : (lookupWord c net input).1 = Except.error e) :
    c.wordCache.lookup (jsToLower (jsTrim input)) = none ∧
    net (jsToLower (jsTrim input)) = Except.error e ∧
    (lookupWord c net input).2.1 = c ∧
    (lookupWord c net input).2.2 = true := by
  unfold lookupWord at h ⊢
  cases hcw : List.lookup (jsToLower (jsTrim input)) c.wordCache with
  | some r => simp [hcw] at h
  | none =>
    cases hnet : net (jsToLower (jsTrim input)) with
    | ok r => simp [hcw, hnet] at h
    | error e2 =>
      simp [hcw, hnet] at h ⊢
      exact h

/-- Sentence-mode analogue of `lookupWord_error_case`. -/
theorem lookupSentence_error_case {c : Caches} {net : String → Except String SentenceData}
    {input e : String} (h : (lookupSentence c net input).1 = Except.error e) :
    c.sentenceCache.lookup (jsTrim input) = none ∧
    net (jsTrim input) = Except.error e ∧
    (lookupSentence c net input).2.1 = c ∧
    (lookupSentence c net input).2.2 = true := by
  unfold lookupSentence at h ⊢
  cases hcw : List.lookup (jsTrim input) c.sentenceCache with
  | some r => simp [hcw] at h
  | none =>
    cases hnet : net (jsTrim input) with
    | ok r => simp [hcw, hnet] at h
    | error e2 =>
      simp [hcw, hnet] at h ⊢
      exact h

/-! Claim theorems. -/

/-- C8. Startup load resilience: for every stored value under a collection key
(absence, empty string, malformed data, or well-formed data) the initializer
totally yields a list — the parsed value when `JSON.parse` succeeds on a
truthy string, and the empty collection on absence or any parse failure. -/
theorem startup_load_resilience {α : Type} (stored : Option String)
    (parse : String → Option (List α)) (hEmpty : parse "" = none) :
    (stored = none → loadStoredList stored parse = []) ∧
    (∀ s, stored = some s → parse s = none → loadStoredList stored parse = []) ∧
    (∀ s l, stored = some s → parse s = some l → loadStoredList stored parse = l) := by
  refine ⟨?_, ?_, ?_⟩
  · intro h; subst h; rfl
  · intro s hs hp; subst hs
    by_cases h0 : s = "" <;> simp [loadStoredList, h0, hp]
  · intro s l hs hp; subst hs
    by_cases h0 : s = ""
    · subst h0; rw [hEmpty] at hp; cases hp
    · simp [loadStoredList, h0, hp]

/-- Witness for C8 at concrete inputs: a missing key and a malformed string
both load as the empty collection, and a well-formed string loads as its
parse. -/
theorem startup_load_resilience_witness :
    demoParse "" = none ∧
    loadStoredList (some "garbage") demoParse = [] ∧
    loadStoredList none demoParse = ([] : List WordData) ∧
    loadStoredList (some "[x]") demoParse = [{ word := "x" }] :=
  ⟨rfl,
   (startup_load_resilience (some "garbage") demoParse rfl).2.1 "garbage" rfl rfl,
   (startup_load_resilience none demoParse rfl).1 rfl,
   (startup_load_resilience (some "[x]") demoParse rfl).2.2 "[x]" [{ word := "x" }] rfl rfl⟩

/-- C9. Quick-lookup frame property: the synchronous start of
`handleQuickLookup` can change nothing but its own loading flag (in
particular the marker, primary loading flag, primary results, error state and
even the detail slot are untouched), and its resumption only resets that flag
and, on success only, fills the transient detail slot; on failure nothing else
changes. -/
theorem quick_lookup_frame (s : AppState) (w : String) (r : WordData) (e : String) :
    (quickLookupStart s w).1 =
      { s with isSubLoading := (quickLookupStart s w).1.isSubLoading } ∧
    (quickLookupStart s w).1.selectedDetail = s.selectedDetail ∧
    quickLookupFinish s (Except.ok r) =
      { s with selectedDetail := some (Sum.inl r), isSubLoading := false } ∧
    quickLookupFinish s (Except.error e) = { s with isSubLoading := false } := by
  refine ⟨?_, ?_, rfl, rfl⟩
  · by_cases h : jsTrim (stripPunct w) = "" ∨ (jsTrim (stripPunct w)).length < 2
    · simp [quickLookupStart, h]
    · simp [quickLookupStart, h]
  · by_cases h : jsTrim (stripPunct w) = "" ∨ (jsTrim (stripPunct w)).length < 2
    · simp [quickLookupStart, h]
    · simp [quickLookupStart, h]

/-- C10. Failure preserves the last result: when the rejecting lookup is still
the latest-dispatched one, the handler sets the error and clears loading but
leaves `wordData`, `sentenceData` and the latency untouched. -/
theorem failure_preserves_last_result (s : AppState) (q0 : String)
    (h : s.latestQuery = q0) :
    (resolveSearchFailure s q0).wordData = s.wordData ∧
    (resolveSearchFailure s q0).sentenceData = s.sentenceData ∧
    (resolveSearchFailure s q0).lastLoadTime = s.lastLoadTime ∧
    (resolveSearchFailure s q0).error = some lookupErrorMessage ∧
    (resolveSearchFailure s q0).loading = false := by
  simp [resolveSearchFailure, h]

/-- Witness for C10: a failing lookup for `cat` (still the marker) keeps the
previously displayed word and surfaces the error. -/
theorem failure_preserves_last_result_witness :
    c10State.latestQuery = "cat" ∧
    (resolveSearchFailure c10State "cat").wordData = c10State.wordData ∧
    (resolveSearchFailure c10State "cat").error = some lookupErrorMessage :=
  ⟨by decide,
   (failure_preserves_last_result c10State "cat" (by decide)).1,
   (failure_preserves_last_result c10State "cat" (by decide)).2.2.2.1⟩

/-- C7. No memoization of failures: a lookup whose external call fails leaves
the memoizer untouched (the normalized key is still absent) and a subsequent
lookup of the same query issues the external call again, in both modes. -/
theorem no_memoization_of_failures (c : Caches)
    (netW : String → Except String WordData) (netS : String → Except String SentenceData)
    (inputW inputS eW eS : String)
    (hW : (lookupWord c netW inputW).1 = Except.error eW)
    (hS : (lookupSentence c netS inputS).1 = Except.error eS) :
    (lookupWord c netW inputW).2.1 = c ∧
    (lookupWord c netW inputW).2.1.wordCache.lookup (jsToLower (jsTrim inputW)) = none ∧
    (lookupWord c netW inputW).2.2 = true ∧
    (lookupWord ((lookupWord c netW inputW).2.1) netW inputW).2.2 = true ∧
    (lookupSentence c netS inputS).2.1 = c ∧
    (lookupSentence c netS inputS).2.1.sentenceCache.lookup (jsTrim inputS) = none ∧
    (lookupSentence c netS inputS).2.2 = true ∧
    (lookupSentence ((lookupSentence c netS inputS).2.1) netS inputS).2.2 = true := by
  obtain ⟨hwNone, hwNet, hwCache, hwFlag⟩ := lookupWord_error_case hW
  obtain ⟨hsNone, hsNet, hsCache, hsFlag⟩ := lookupSentence_error_case hS
  refine ⟨hwCache, ?_, hwFlag, ?_, hsCache, ?_, hsFlag, ?_⟩
  · rw [hwCache]; exact hwNone
  · rw [hwCache]; unfold lookupWord; simp [hwNone, hwNet]
  · rw [hsCache]; exact hsNone
  · rw [hsCache]; unfold lookupSentence; simp [hsNone, hsNet]

/-- Witness for C7: with an always-failing oracle and empty caches, two
successive lookups of the same query each hit the network and cache nothing. -/
theorem no_memoization_of_failures_witness :
    (lookupWord ({} : Caches) badNetW " Dog ").1 = Except.error "boom" ∧
    (lookupSentence ({} : Caches) badNetS " hi there ").1 = Except.error "boom" ∧
    (lookupWord ({} : Caches) badNetW " Dog ").2.1 = ({} : Caches) ∧
    (lookupWord ((lookupWord ({} : Caches) badNetW " Dog ").2.1) badNetW " Dog ").2.2 = true :=
  ⟨rfl, rfl,
   (no_memoization_of_failures ({} : Caches) badNetW badNetS " Dog " " hi there "
      "boom" "boom" rfl rfl).1,
   (no_memoization_of_failures ({} : Caches) badNetW badNetS " Dog " " hi there "
      "boom" "boom" rfl rfl).2.2.2.1⟩

/-- C3. toggleSave postcondition: when the item's identity is already saved
(case-insensitively for words, exact text for sentences), toggling removes the
matching entry and adds nothing, keeping all other entries in order; otherwise
toggling prepends the item with `srs_level = 0` and `next_review = now`,
leaving the rest of the collection unchanged. -/
theorem toggle_save_postcondition (savedW : List WordData) (savedS : List SentenceData)
    (w : WordData) (d : SentenceData) (now : Nat) :
    (isWordSaved savedW w = true →
      (handleToggleSaveWord savedW w now).Sublist savedW ∧
      (∀ x ∈ handleToggleSaveWord savedW w now, jsToLower x.word ≠ jsToLower w.word) ∧
      (∀ x ∈ savedW, jsToLower x.word ≠ jsToLower w.word →
        x ∈ handleToggleSaveWord savedW w now)) ∧
    (isWordSaved savedW w = false →
      handleToggleSaveWord savedW w now =
        { w with srs_level := some 0, next_review := some now } :: savedW) ∧
    (isSentenceSaved savedS d = true →
      (handleToggleSaveSentence savedS d now).Sublist savedS ∧
      (∀ x ∈ handleToggleSaveSentence savedS d now, x.sentence ≠ d.sentence) ∧
      (∀ x ∈ savedS, x.sentence ≠ d.sentence → x ∈ handleToggleSaveSentence savedS d now)) ∧
    (isSentenceSaved savedS d = false →
      handleToggleSaveSentence savedS d now =
        { d with srs_level := some 0, next_review := some now } :: savedS) := by
  refine ⟨?_, ?_, ?_, ?_⟩
  · intro h
    refine ⟨?_, ?_, ?_⟩
    · simp only [handleToggleSaveWord, h, if_true]
      exact List.filter_sublist savedW
    · intro x hx
      simp only [handleToggleSaveWord, h, if_true, List.mem_filter, bne_iff_ne] at hx
      exact hx.2
    · intro x hx hni
      simp only [handleToggleSaveWord, h, if_true, List.mem_filter, bne_iff_ne]
      exact ⟨hx, hni⟩
  · intro h
    simp [handleToggleSaveWord, h]
  · intro h
    refine ⟨?_, ?_, ?_⟩
    · simp only [handleToggleSaveSentence, h, if_true]
      exact List.filter_sublist savedS
    · intro x hx
      simp only [handleToggleSaveSentence, h, if_true, List.mem_filter, bne_iff_ne] at hx
      exact hx.2
    · intro x hx hni
      simp only [handleToggleSaveSentence, h, if_true, List.mem_filter, bne_iff_ne]
      exact ⟨hx, hni⟩
  · intro h
    simp [handleToggleSaveSentence, h]

/-- Witness for C3: toggling `run` against a collection storing `Run` removes
the stored entry (no duplicate is added), and toggling an unsaved sentence
prepends it with `srs_level = 0` and `next_review = now`. -/
theorem toggle_save_postcondition_witness :
    isWordSaved [runEntry] runLower = true ∧
    (handleToggleSaveWord [runEntry] runLower 5).Sublist [runEntry] ∧
    handleToggleSaveWord [runEntry] runLower 5 = [] ∧
    isSentenceSaved [] helloSentence = false ∧
    handleToggleSaveSentence [] helloSentence 7 =
      [{ helloSentence with srs_level := some 0, next_review := some 7 }] :=
  ⟨by decide,
   ((toggle_save_postcondition [runEntry] [] runLower helloSentence 5).1 (by decide)).1,
   by decide,
   by decide,
   (toggle_save_postcondition [runEntry] [] runLower helloSentence 7).2.2.2 (by decide)⟩

/-- A successful `lookupWord` call leaves the normalized key cached with the
returned value, and never touches the sentence mapping. -/
theorem lookupWord_ok_cached {c : Caches} {net : String → Except String WordData}
    {input : String} {r : WordData} (h : (lookupWord c net input).1 = Except.ok r) :
    (lookupWord c net input).2.1.wordCache.lookup (jsToLower (jsTrim input)) = some r ∧
    (lookupWord c net input).2.1.sentenceCache = c.sentenceCache := by
  unfold lookupWord at h ⊢
  cases hcw : List.lookup (jsToLower (jsTrim input)) c.wordCache with
  | some r0 =>
    simp [hcw] at h ⊢
    simp [h]
  | none =>
    cases hnet : net (jsToLower (jsTrim input)) with
    | ok res => simp [hcw, hnet] at h ⊢; simp [List.lookup, h]
    | error e => simp [hcw, hnet] at h

/-- A `lookupWord` call whose normalized key is cached is a pure hit: the
cached value is returned, the caches are unchanged, no external call. -/
theorem lookupWord_hit {c : Caches} {net : String → Except String WordData}
    {input : String} {r : WordData}
    (h : c.wordCache.lookup (jsToLower (jsTrim input)) = some r) :
    lookupWord c net input = (Except.ok r, c, false) := by
  unfold lookupWord
  simp [h]

/-- Sentence-mode analogue of `lookupWord_ok_cached`. -/
theorem lookupSentence_ok_cached {c : Caches} {net : String → Except String SentenceData}
    {input : String} {r : SentenceData} (h : (lookupSentence c net input).1 = Except.ok r) :
    (lookupSentence c net input).2.1.sentenceCache.lookup (jsTrim input) = some r ∧
    (lookupSentence c net input).2.1.wordCache = c.wordCache := by
  unfold lookupSentence at h ⊢
  cases hcw : List.lookup (jsTrim input) c.sentenceCache with
  | some r0 =>
    simp [hcw] at h ⊢
    simp [h]
  | none =>
    cases hnet : net (jsTrim input) with
    | ok res => simp [hcw, hnet] at h ⊢; simp [List.lookup, h]
    | error e => simp [hcw, hnet] at h

/-- Sentence-mode analogue of `lookupWord_hit`. -/
theorem lookupSentence_hit {c : Caches} {net : String → Except String SentenceData}
    {input : String} {r : SentenceData}
    (h : c.sentenceCache.lookup (jsTrim input) = some r) :
    lookupSentence c net input = (Except.ok r, c, false) := by
  unfold lookupSentence
  simp [h]

/-- C2 (amended). Memoizer idempotence given a successful first call: a second
lookup with the same normalized query (trimmed, and lower-cased in word mode)
is answered from the cache with no external call and no cache change, and each
mode's lookup never touches the other mode's mapping. -/
theorem memoizer_idempotence (c : Caches)
    (netW : String → Except String WordData) (netS : String → Except String SentenceData)
    (i1 i2 j1 j2 : String) (rW : WordData) (rS : SentenceData)
    (hWn : jsToLower (jsTrim i1) = jsToLower (jsTrim i2))
    (hW1 : (lookupWord c netW i1).1 = Except.ok rW)
    (hSn : jsTrim j1 = jsTrim j2)
    (hS1 : (lookupSentence c netS j1).1 = Except.ok rS) :
    lookupWord ((lookupWord c netW i1).2.1) netW i2 =
      (Except.ok rW, (lookupWord c netW i1).2.1, false) ∧
    (lookupWord c netW i1).2.1.sentenceCache = c.sentenceCache ∧
    lookupSentence ((lookupSentence c netS j1).2.1) netS j2 =
      (Except.ok rS, (lookupSentence c netS j1).2.1, false) ∧
    (lookupSentence c netS j1).2.1.wordCache = c.wordCache := by
  obtain ⟨hWc, hWf⟩ := lookupWord_ok_cached hW1
  obtain ⟨hSc, hSf⟩ := lookupSentence_ok_cached hS1
  refine ⟨?_, hWf, ?_, hSf⟩
  · exact lookupWord_hit (hWn ▸ hWc)
  · exact lookupSentence_hit (hSn ▸ hSc)

/-- Counterexample to C2 as stated: with an always-failing oracle, two lookups
of the same normalized query in one session each issue the external call —
more than "at most once". -/
theorem memoizer_idempotence_cex :
    (lookupWord ({} : Caches) badNetW "cat").2.2 = true ∧
    (lookupWord ((lookupWord ({} : Caches) badNetW "cat").2.1) badNetW "cat").2.2 = true :=
  ⟨rfl, rfl⟩

/-- Witness for C2 (amended) at concrete inputs: `Cat ` then `cat` in word
mode, ` hello there` then `hello there` in sentence mode, against an
all-answering oracle and empty caches. -/
theorem memoizer_idempotence_witness :
    jsToLower (jsTrim "Cat ") = jsToLower (jsTrim "cat") ∧
    (lookupWord ({} : Caches) goodNetW "Cat ").1 =
      Except.ok { word := "cat", payload := "net" } ∧
    jsTrim " hello there" = jsTrim "hello there" ∧
    (lookupSentence ({} : Caches) goodNetS " hello there").1 =
      Except.ok { sentence := "hello there", payload := "net" } ∧
    lookupWord ((lookupWord ({} : Caches) goodNetW "Cat ").2.1) goodNetW "cat" =
      (Except.ok { word := "cat", payload := "net" },
       (lookupWord ({} : Caches) goodNetW "Cat ").2.1, false) :=
  ⟨rfl, rfl, rfl, rfl,
   (memoizer_idempotence ({} : Caches) goodNetW goodNetS "Cat " "cat"
      " hello there" "hello there" { word := "cat", payload := "net" }
      { sentence := "hello there", payload := "net" } rfl rfl rfl rfl).1⟩

/-- Counterexample to C6 as stated: submitting `cat` while `cat` is displayed
(but while an older lookup for `dog` owns the marker) is not a complete
no-op — the dedup path still rewrites the latest-dispatched marker, so the
state changes. -/
theorem same_query_submit_cex :
    sameAsDisplayed { c6State with latestQuery := jsTrim c6State.query }
      (jsTrim c6State.query) = true ∧
    (dispatchSearch c6State).2 = DispatchOutcome.sameQuery ∧
    (dispatchSearch c6State).1 ≠ c6State := by
  decide

/-- C6 (amended). Same-query submit: when the trimmed query matches the
displayed result's identity for the current mode, `handleSearch` issues no
external call and changes nothing except the latest-dispatched marker, which
it sets to the trimmed query before the dedup check. -/
theorem same_query_submit (s : AppState)
    (hne : jsTrim s.query ≠ "")
    (hsame : sameAsDisplayed { s with latestQuery := jsTrim s.query }
      (jsTrim s.query) = true) :
    dispatchSearch s = ({ s with latestQuery := jsTrim s.query }, DispatchOutcome.sameQuery) := by
  unfold dispatchSearch
  simp [hne, hsame]

/-- Witness for C6 (amended): submitting ` cat ` while `Cat` is displayed in
word mode returns early with only the marker updated to `cat`. -/
theorem same_query_submit_witness :
    jsTrim c6SubmitState.query ≠ "" ∧
    sameAsDisplayed { c6SubmitState with latestQuery := jsTrim c6SubmitState.query }
      (jsTrim c6SubmitState.query) = true ∧
    dispatchSearch c6SubmitState =
      ({ c6SubmitState with latestQuery := "cat" }, DispatchOutcome.sameQuery) :=
  ⟨by decide, by decide, same_query_submit c6SubmitState (by decide) (by decide)⟩

/-- Counterexample to C4 as stated: at the moment the query is empty the
debounce effect leaves the error state as it was — it is not cleared. -/
theorem empty_query_clearing_cex :
    (jsTrim c4ErrState.query).length = 0 ∧
    (debounceEffectClear c4ErrState).error ≠ none := by
  decide

/-- C4 (amended). Empty-query clearing: whenever the trimmed query has length
0, the effect synchronously (no debounce delay, no external call scheduled)
clears the displayed results and the latency, while the error state is left
unchanged. -/
theorem empty_query_clearing (s : AppState) (h : (jsTrim s.query).length = 0) :
    (debounceEffectClear s).wordData = none ∧
    (debounceEffectClear s).sentenceData = none ∧
    (debounceEffectClear s).lastLoadTime = none ∧
    (debounceEffectClear s).error = s.error ∧
    (debounceEffectClear s).loading = s.loading ∧
    debounceEffectSchedules s = false := by
  have h2 : (jsTrim s.query).length < 2 := by omega
  unfold debounceEffectClear debounceEffectSchedules
  rw [if_pos (Or.inr h2), if_pos h]
  simp [h]

/-- Witness for C4 (amended): a whitespace-only query clears the displayed
word, sentence and latency, schedules nothing, and keeps the error shown. -/
theorem empty_query_clearing_witness :
    (jsTrim c4WitState.query).length = 0 ∧
    (debounceEffectClear c4WitState).wordData = none ∧
    (debounceEffectClear c4WitState).lastLoadTime = none ∧
    (debounceEffectClear c4WitState).error = c4WitState.error ∧
    debounceEffectSchedules c4WitState = false :=
  ⟨by decide,
   (empty_query_clearing c4WitState (by decide)).1,
   (empty_query_clearing c4WitState (by decide)).2.2.1,
   (empty_query_clearing c4WitState (by decide)).2.2.2.1,
   (empty_query_clearing c4WitState (by decide)).2.2.2.2.2⟩

/-- A word-mode resumption whose initiating query lost the marker is a
no-op. -/
theorem resolveWord_stale {s : AppState} {q : String} (h : s.latestQuery ≠ q)
    (r : WordData) (e : Nat) : resolveSearchSuccessWord s q r e = s := by
  unfold resolveSearchSuccessWord
  rw [if_neg h]

/-- A sentence-mode resumption whose initiating query lost the marker is a
no-op. -/
theorem resolveSentence_stale {s : AppState} {q : String} (h : s.latestQuery ≠ q)
    (r : SentenceData) (e : Nat) : resolveSearchSuccessSentence s q r e = s := by
  unfold resolveSearchSuccessSentence
  rw [if_neg h]

/-- A failure resumption whose initiating query lost the marker is a no-op. -/
theorem resolveFailure_stale {s : AppState} {q : String} (h : s.latestQuery ≠ q) :
    resolveSearchFailure s q = s := by
  unfold resolveSearchFailure
  rw [if_neg h]

/-- Characterization of a dispatched lookup: when `handleSearch`'s synchronous
prefix reports `inFlight q m`, the cleaned query `q` is the trimmed input, `m`
is the mode at dispatch time, and the resulting state carries the marker `q`,
`loading = true` and a cleared error. -/
theorem dispatchSearch_inFlight {s s' : AppState} {q : String} {m : SearchMode}
    (h : dispatchSearch s = (s', DispatchOutcome.inFlight q m)) :
    q = jsTrim s.query ∧ m = s.searchMode ∧
    s' = { s with latestQuery := q, loading := true, error := none } := by
  unfold dispatchSearch at h
  by_cases h0 : jsTrim s.query = ""
  · simp [h0] at h
  · rw [if_neg h0] at h
    by_cases h1 : sameAsDisplayed { s with latestQuery := jsTrim s.query }
        (jsTrim s.query) = true
    · simp [h1] at h
    · simp only [h1, if_false, Bool.false_eq_true, ite_false] at h
      obtain ⟨hs, hout⟩ := Prod.mk.injEq .. ▸ h
      obtain ⟨hq, hm⟩ := DispatchOutcome.inFlight.injEq .. ▸ hout
      subst hq hm
      exact ⟨rfl, rfl, hs.symm⟩

/-- C1. Stale-result suppression: if a lookup for `q1` is dispatched and then a
lookup for a different `q2` is dispatched (both in word mode), after `q2`'s
call resolves first and `q1`'s second, the displayed result is `q2`'s and not
`q1`'s; and, in general, any resumption (word success, sentence success or
failure) whose initiating query no longer equals the latest-dispatched marker
leaves the state completely unchanged. -/
theorem stale_result_suppression
    (s0 sA sB : AppState) (qraw q1 q2 : String) (m1 : SearchMode)
    (r1 r2 : WordData) (e1 e2 : Nat)
    (_h1 : dispatchSearch s0 = (sA, DispatchOutcome.inFlight q1 m1))
    (h2 : dispatchSearch { sA with query := qraw } =
      (sB, DispatchOutcome.inFlight q2 SearchMode.word))
    (hne : q1 ≠ q2) :
    (resolveSearchSuccessWord (resolveSearchSuccessWord sB q2 r2 e2) q1 r1 e1).wordData =
      some r2 ∧
    (r1 ≠ r2 →
      (resolveSearchSuccessWord (resolveSearchSuccessWord sB q2 r2 e2) q1 r1 e1).wordData ≠
        some r1) ∧
    (∀ (s : AppState) (q : String), s.latestQuery ≠ q →
      (∀ (r : WordData) (e : Nat), resolveSearchSuccessWord s q r e = s) ∧
      (∀ (r : SentenceData) (e : Nat), resolveSearchSuccessSentence s q r e = s) ∧
      resolveSearchFailure s q = s) := by
  have hB := dispatchSearch_inFlight h2
  have hBq : sB.latestQuery = q2 := by rw [hB.2.2]
  have hC : resolveSearchSuccessWord sB q2 r2 e2 =
      { sB with wordData := some r2, sentenceData := none, lastLoadTime := some e2,
                loading := false } := by
    unfold resolveSearchSuccessWord
    rw [if_pos hBq]
  have hCq : (resolveSearchSuccessWord sB q2 r2 e2).latestQuery = q2 := by
    rw [hC]; exact hBq
  have hfinal : resolveSearchSuccessWord (resolveSearchSuccessWord sB q2 r2 e2) q1 r1 e1 =
      resolveSearchSuccessWord sB q2 r2 e2 :=
    resolveWord_stale (by rw [hCq]; exact fun hh => hne hh.symm) r1 e1
  refine ⟨?_, ?_, ?_⟩
  · rw [hfinal, hC]
  · intro hr hcontra
    rw [hfinal, hC] at hcontra
    exact hr (Option.some.injEq .. ▸ hcontra).symm
  · intro s q hq
    exact ⟨fun r e => resolveWord_stale hq r e,
           fun r e => resolveSentence_stale hq r e,
           resolveFailure_stale hq⟩

/-- Witness for C1: dispatch ` dog `, then `cat`; after `cat`'s result lands
first and `dog`'s stale result arrives second, the displayed word is `cat`. -/
theorem stale_result_suppression_witness :
    dispatchSearch s0Fix =
      ((dispatchSearch s0Fix).1, DispatchOutcome.inFlight "dog" SearchMode.word) ∧
    dispatchSearch { (dispatchSearch s0Fix).1 with query := "cat" } =
      ((dispatchSearch { (dispatchSearch s0Fix).1 with query := "cat" }).1,
        DispatchOutcome.inFlight "cat" SearchMode.word) ∧
    ("dog" : String) ≠ "cat" ∧
    (resolveSearchSuccessWord
      (resolveSearchSuccessWord
        (dispatchSearch { (dispatchSearch s0Fix).1 with query := "cat" }).1
        "cat" { word := "cat" } 7)
      "dog" { word := "dog" } 9).wordData = some { word := "cat" } :=
  ⟨by decide, by decide, by decide,
   (stale_result_suppression s0Fix (dispatchSearch s0Fix).1
      (dispatchSearch { (dispatchSearch s0Fix).1 with query := "cat" }).1
      "cat" "dog" "cat" SearchMode.word { word := "dog" } { word := "cat" } 9 7
      (by decide) (by decide) (by decide)).1⟩

/-- Firing a due timer only moves the already-pending invocation into the call
log: every call afterwards was a call before or was the pending invocation,
and any still-pending invocation was already pending. -/
theorem fireIfDue_spec (st : DebounceState) (t : Nat) :
    (∀ c ∈ (fireIfDue st t).calls, c ∈ st.calls ∨ st.pending = some c) ∧
    (∀ p, (fireIfDue st t).pending = some p → st.pending = some p) := by
  unfold fireIfDue
  cases hp : st.pending with
  | none => simp [hp]
  | some pr =>
    by_cases hd : pr.1 ≤ t
    · simp only [hd, if_true]
      constructor
      · intro c hc
        rcases List.mem_append.mp hc with h | h
        · exact Or.inl h
        · right
          rw [List.mem_singleton.mp h]
      · intro p h
        cases h
    · simp only [hd, if_false]
      exact ⟨fun c hc => Or.inl hc, fun p h => hp ▸ h⟩

/-- One debounce step: every logged call was logged before or was the
previously pending invocation, and a pending invocation afterwards was
scheduled by this event, in the search view, with a trimmed query of length at
least 2, to fire 400 time-units after the event. -/
theorem debounceStep_spec (st : DebounceState) (e : InputEvent) :
    (∀ c ∈ (debounceStep st e).calls, c ∈ st.calls ∨ st.pending = some c) ∧
    (∀ p, (debounceStep st e).pending = some p →
      p = (e.time + 400, e.query, e.mode) ∧ e.view = View.search ∧
        2 ≤ (jsTrim e.query).length) := by
  unfold debounceStep
  by_cases hq : e.view = View.search ∧ 2 ≤ (jsTrim e.query).length
  · rw [if_pos hq]
    constructor
    · intro c hc
      exact (fireIfDue_spec st e.time).1 c hc
    · intro p hp
      cases hp
      exact ⟨rfl, hq.1, hq.2⟩
  · rw [if_neg hq]
    constructor
    · intro c hc
      exact (fireIfDue_spec st e.time).1 c hc
    · intro p hp
      cases hp

/-- Soundness invariant of the debounce fold: starting from a state whose
calls and pending invocation all come from qualifying events, every call and
pending invocation after processing a sublist of the events still does. -/
theorem debounce_foldl_sound (events : List InputEvent) :
    ∀ (es : List InputEvent) (st : DebounceState),
      (∀ x ∈ es, x ∈ events) →
      (∀ c ∈ st.calls, callFromEvent events c) →
      (∀ p, st.pending = some p → callFromEvent events p) →
      (∀ c ∈ (es.foldl debounceStep st).calls, callFromEvent events c) ∧
      (∀ p, (es.foldl debounceStep st).pending = some p → callFromEvent events p) := by
  intro es
  induction es with
  | nil =>
    intro st _ hc hp
    exact ⟨hc, hp⟩
  | cons e es ih =>
    intro st hsub hc hp
    have he : e ∈ events := hsub e (List.mem_cons_self e es)
    rw [List.foldl_cons]
    apply ih
    · intro x hx
      exact hsub x (List.mem_cons_of_mem e hx)
    · intro c hcmem
      rcases (debounceStep_spec st e).1 c hcmem with h | h
      · exact hc c h
      · exact hp c h
    · intro p hpmem
      obtain ⟨hpe, hv, hl⟩ := (debounceStep_spec st e).2 p hpmem
      exact ⟨e, he, hv, hl, by rw [hpe], by rw [hpe], by rw [hpe]⟩

/-- During a burst (all events in the search view, consecutive gaps under 400
time-units), no timer ever fires while events keep coming: the fold ends with
an untouched call log and with exactly the last event's invocation pending
(when its query qualifies), or nothing pending (when it does not). -/
theorem debounce_foldl_burst :
    ∀ (es : List InputEvent) (e l : InputEvent)
      (cs : List (Nat × String × SearchMode)) (p : Option (Nat × String × SearchMode)),
      (∀ x ∈ e :: es, x.view = View.search) →
      burstGaps (e :: es) = true →
      (e :: es).getLast? = some l →
      (∀ pr, p = some pr → e.time < pr.1) →
      (e :: es).foldl debounceStep { pending := p, calls := cs } =
        { pending := if 2 ≤ (jsTrim l.query).length
            then some (l.time + 400, l.query, l.mode) else none,
          calls := cs } := by
  intro es
  induction es with
  | nil =>
    intro e l cs p hall _ hlast hp
    have hle : l = e := by simpa using hlast.symm
    subst hle
    have hv := hall l (List.mem_cons_self l [])
    rw [List.foldl_cons, List.foldl_nil]
    unfold debounceStep fireIfDue
    cases hpc : p with
    | none =>
      by_cases hlen : 2 ≤ (jsTrim l.query).length <;> simp [hv, hlen]
    | some pr =>
      have hnd : ¬ pr.1 ≤ l.time := by
        have := hp pr hpc
        omega
      by_cases hlen : 2 ≤ (jsTrim l.query).length <;> simp [hv, hlen, hnd]
  | cons e2 es2 ih =>
    intro e l cs p hall hgaps hlast hp
    have hv := hall e (List.mem_cons_self e (e2 :: es2))
    have hgaps1 : (e.time < e2.time ∧ e2.time < e.time + 400) ∧
        burstGaps (e2 :: es2) = true := by
      unfold burstGaps at hgaps
      simp only [Bool.and_eq_true, decide_eq_true_eq] at hgaps
      exact ⟨hgaps.1, hgaps.2⟩
    rw [List.foldl_cons]
    have hstep : debounceStep { pending := p, calls := cs } e =
        { pending := if 2 ≤ (jsTrim e.query).length
            then some (e.time + 400, e.query, e.mode) else none,
          calls := cs } := by
      unfold debounceStep fireIfDue
      cases hpc : p with
      | none =>
        by_cases hlen : 2 ≤ (jsTrim e.query).length <;> simp [hv, hlen]
      | some pr =>
        have hnd : ¬ pr.1 ≤ e.time := by
          have := hp pr hpc
          omega
        by_cases hlen : 2 ≤ (jsTrim e.query).length <;> simp [hv, hlen, hnd]
    rw [hstep]
    apply ih e2 l cs _ (fun x hx => hall x (List.mem_cons_of_mem e hx)) hgaps1.2
      (by simpa using hlast)
    intro pr hpr
    by_cases hlen : 2 ≤ (jsTrim e.query).length
    · rw [if_pos hlen] at hpr
      cases hpr
      exact hgaps1.1.2
    · rw [if_neg hlen] at hpr
      cases hpr

/-- C5. Debounce trigger conditions: every fired lookup comes from a
dependency change made in the search view with a trimmed query of length at
least 2, carries that change's query and mode, and fires exactly 400
time-units after the change (so a length-0 or length-1 query never triggers a
call, even after the delay elapses); and a burst of changes in the search view
with gaps under 400 time-units produces exactly one call, for the final
query — or none at all when the final query does not qualify. -/
theorem debounce_trigger_conditions :
    (∀ (events : List InputEvent) (c : Nat × String × SearchMode),
      c ∈ (debounceRun events).calls → callFromEvent events c) ∧
    (∀ (events : List InputEvent) (t : Nat) (q : String) (m : SearchMode),
      (jsTrim q).length < 2 → (t, q, m) ∉ (debounceRun events).calls) ∧
    (∀ (events : List InputEvent) (l : InputEvent),
      (∀ x ∈ events, x.view = View.search) →
      burstGaps events = true →
      events.getLast? = some l →
      debounceRun events =
        { pending := none,
          calls := if 2 ≤ (jsTrim l.query).length
            then [(l.time + 400, l.query, l.mode)] else [] }) := by
  have sound : ∀ (events : List InputEvent) (c : Nat × String × SearchMode),
      c ∈ (debounceRun events).calls → callFromEvent events c := by
    intro events c hc
    obtain ⟨hcs, hpd⟩ := debounce_foldl_sound events events
      { pending := none, calls := [] } (fun x hx => hx)
      (by intro c hc0; cases hc0) (by intro p hp0; cases hp0)
    unfold debounceRun at hc
    cases hf : (events.foldl debounceStep { pending := none, calls := [] }).pending with
    | none =>
      simp only [hf] at hc
      exact hcs c hc
    | some pr =>
      simp only [hf, List.mem_append, List.mem_singleton] at hc
      rcases hc with h | h
      · exact hcs c h
      · rw [h]
        exact hpd pr hf
  refine ⟨sound, ?_, ?_⟩
  · intro events t q m hlen hmem
    obtain ⟨e, _, _, hl, hq, _, _⟩ := sound events (t, q, m) hmem
    rw [show (t, q, m).2.1 = q from rfl] at hq
    rw [hq] at hlen
    omega
  · intro events l hall hgaps hlast
    cases events with
    | nil => cases hlast
    | cons e es =>
      unfold debounceRun
      rw [debounce_foldl_burst es e l [] none hall hgaps hlast (fun pr h => by cases h)]
      by_cases hlen : 2 ≤ (jsTrim l.query).length
      · simp [hlen]
      · simp [hlen]

/-- Witness for C5: the burst `c`, `ca`, `cat` typed 100 time-units apart in
the search view fires exactly one lookup, for `cat`, 400 time-units after the
last keystroke. -/
theorem debounce_trigger_conditions_witness :
    burstGaps burstFix = true ∧
    burstFix.getLast? =
      some { time := 200, query := "cat", mode := SearchMode.word, view := View.search } ∧
    debounceRun burstFix = { pending := none, calls := [(600, "cat", SearchMode.word)] } := by
  refine ⟨by decide, by decide, ?_⟩
  have h := debounce_trigger_conditions.2.2 burstFix
    { time := 200, query := "cat", mode := SearchMode.word, view := View.search }
    (by decide) (by decide) (by decide)
  exact h.trans (by decide)
